import Mathlib

/-!
# Master-mind: game logic of `master-mind.c`

A shallow embedding of the game logic of `src/master-mind.c` (the secret
generator `initSeq`, the scoring function `countMatches`, the integer decoder
`readSeq`, the unit-test printer `showMatches`, the LED helper `blinkN`, the
digit-entry loop and the round loop of `main`), followed by theorems about
those definitions.

Conventions of the embedding.
* A C `int` array is a `List Int`; `a[i]` is `rd a i` and `a[i] = v` is
  `List.set`.  Every index the embedded code uses is a loop index in `0..2`,
  except the index of the validation loop of `main` (see `readAttSeq`).
* C `int` values are `Int`; `/` and `%` on `int` are `Int.tdiv` and
  `Int.tmod` (truncation towards zero).  The 32-bit timer register is a `Nat`
  with explicit `% 2 ^ 32`.
* Calls into the hardware layer and to `printf` are recorded, in order, as a
  list of `Event`s.
* Memory the program reads before writing it is an input of the embedding:
  the content of every block `malloc` returns (`checked` in `countMatches`,
  `theSeq`, `seq1`, `seq2`) and the variable `i` of `main`, which is never
  assigned.
-/

namespace MasterMind

/-! ## Constants (`#define`s of the source) -/

/-- GPIO pin of the green LED (`#define LED 13`). -/
def LED : Nat := 13

/-- GPIO pin of the red LED (`#define LED2 5`). -/
def LED2 : Nat := 5

/-- Digit-entry timeout in microseconds (`#define TIMEOUT 3000000`). -/
def TIMEOUT : Nat := 3000000

/-- Logic level `LOW`. -/
def LOW : Nat := 0

/-- Logic level `HIGH`. -/
def HIGH : Nat := 1

/-! ## Arrays -/

/-- Array read `a[i]`. -/
def rd (a : List Int) (i : Nat) : Int := a.getD i 0

/-! ## `countMatches` -/

/-- Local variables of `countMatches`: the counters `exact` and `approximate`
and the marker array `checked`. -/
structure MatchState where
  exact : Int
  approximate : Int
  checked : List Int
  deriving DecidableEq, Repr

/-- Inner loop of `countMatches`, `for (j = ...; j < 3; j++)`, over the
remaining values of `j`: at the first `j` with `seq1[j] == seq2[i]` and
`!checked[j]` it increments `approximate`, sets `checked[j] = 1` and breaks. -/
def scanSecret (seq1 seq2 : List Int) (i : Nat) : List Nat → MatchState → MatchState
  | [], st => st
  | j :: js, st =>
    if rd seq1 j = rd seq2 i then
      if rd st.checked j = 0 then
        { st with approximate := st.approximate + 1, checked := st.checked.set j 1 }
      else scanSecret seq1 seq2 i js st
    else scanSecret seq1 seq2 i js st

/-- Body of the outer loop of `countMatches` for index `i`: the branch
`seq1[i] == seq2[i]` (count an exact match, take back an approximate match
already booked on `checked[i]`, set `checked[i]`), and the branch
`else if (seq1[i] != seq2[i])`, whose condition is the negation of the first
and which runs the inner loop. -/
def matchStep (seq1 seq2 : List Int) (st : MatchState) (i : Nat) : MatchState :=
  if rd seq1 i = rd seq2 i then
    let approximate := if rd st.checked i ≠ 0 then st.approximate - 1 else st.approximate
    { exact := st.exact + 1, approximate := approximate, checked := st.checked.set i 1 }
  else
    scanSecret seq1 seq2 i [0, 1, 2] st

/-- Outer loop of `countMatches` run over the indices `is`. -/
def matchLoop (seq1 seq2 : List Int) (is : List Nat) (st : MatchState) : MatchState :=
  is.foldl (matchStep seq1 seq2) st

/-- The state `countMatches` reaches after its loop `for (i = 0; i < 3; i++)`,
when the freshly allocated `checked` array holds `checked0`. -/
def countMatchesFrom (checked0 : List Int) (seq1 seq2 : List Int) : MatchState :=
  matchLoop seq1 seq2 [0, 1, 2] { exact := 0, approximate := 0, checked := checked0 }

/-- Encoding of the result, `matchesFound = (exact * 10) + approximate`. -/
def encodeMatches (st : MatchState) : Int := st.exact * 10 + st.approximate

/-- The function `countMatches(seq1, seq2)`.  `checked` is the content of the
block `malloc(3 * sizeof(int))` returns for the marker array: the function
reads it without writing it first, so it is an input of the call. -/
def countMatches (checked seq1 seq2 : List Int) : Int :=
  encodeMatches (countMatchesFrom checked seq1 seq2)

/-! ## The two-pass scoring algorithm of the specification -/

/-- State of the two-pass algorithm: the two counts and one consumed marker
per position of the secret and of the guess. -/
structure SpecState where
  exact : Nat
  approximate : Nat
  secretUsed : List Bool
  guessUsed : List Bool
  deriving DecidableEq, Repr

/-- Pass 1 of the specification at index `i`: if `guess[i] == secret[i]`,
increment `exact` and mark `secret[i]` and `guess[i]` consumed. -/
def specPass1Step (secret guess : List Int) (st : SpecState) (i : Nat) : SpecState :=
  if rd guess i = rd secret i then
    { st with exact := st.exact + 1,
              secretUsed := st.secretUsed.set i true,
              guessUsed := st.guessUsed.set i true }
  else st

/-- Scan of pass 2 for guess position `i`: the lowest unconsumed secret
position `j` with `secret[j] == guess[i]` is consumed and counted. -/
def specScan (secret guess : List Int) (i : Nat) : List Nat → SpecState → SpecState
  | [], st => st
  | j :: js, st =>
    if st.secretUsed.getD j false = false ∧ rd secret j = rd guess i then
      { st with approximate := st.approximate + 1, secretUsed := st.secretUsed.set j true }
    else specScan secret guess i js st

/-- Pass 2 of the specification at index `i`: only unconsumed guess positions
are scanned. -/
def specPass2Step (secret guess : List Int) (st : SpecState) (i : Nat) : SpecState :=
  if st.guessUsed.getD i false = false then specScan secret guess i [0, 1, 2] st else st

/-- The score `(exact, approximate)` of the two-pass algorithm as the
specification words it. -/
def specScore (secret guess : List Int) : Nat × Nat :=
  let st0 : SpecState :=
    { exact := 0, approximate := 0,
      secretUsed := [false, false, false], guessUsed := [false, false, false] }
  let st1 := [0, 1, 2].foldl (specPass1Step secret guess) st0
  let st2 := [0, 1, 2].foldl (specPass2Step secret guess) st1
  (st2.exact, st2.approximate)

/-! ## `initSeq` -/

/-- The function `initSeq()`: the loop `for (i = 0; i < seqlen; i++)` with
`theSeq[i] = (rand() % 3) + 1`.  `theSeq` is the content of the block
allocated for the 3 elements before the loop, and `rand k` is the value the
`k`-th call of `rand()` returns (the generator is seeded from the clock
before). -/
def initSeq (theSeq : List Int) (rand : Nat → Int) : List Int :=
  [0, 1, 2].foldl (fun seq i => seq.set i ((rand i).tmod 3 + 1)) theSeq

/-! ## `readSeq` and `showMatches` -/

/-- One iteration of the loop of `readSeq` for index `i`, on the pair
`(seq, j)`: `seq[i] = (j % 10); j = j / 10;`. -/
def readSeqStep (p : List Int × Int) (i : Nat) : List Int × Int :=
  (p.1.set i (p.2.tmod 10), p.2.tdiv 10)

/-- The function `readSeq(seq, val)`: the loop `for (i = 2; i >= 0; i--)`
starting from `j = val`; the result is the array `seq` after the call. -/
def readSeq (seq : List Int) (val : Int) : List Int :=
  ([2, 1, 0].foldl readSeqStep (seq, val)).1

/-- Output and hardware calls of the program, in the order they are made. -/
inductive Event where
  /-- Call `writeLED(gpio, led, value)`. -/
  | writeLED (led value : Nat)
  /-- Call `nanosleep` with `tv_sec = sec`, `tv_nsec = nsec`. -/
  | nanosleep (sec nsec : Nat)
  /-- Call `delayMicroseconds(howLong)`. -/
  | delayMicroseconds (howLong : Nat)
  /-- Text written to `stdout`. -/
  | printf (text : String)
  deriving DecidableEq, Repr

/-- The function `showMatches(code, seq1, seq2, lcd_format)`: it prints
`code / 10` and `code % 10`; the other arguments are not used. -/
def showMatches (code : Int) : List Event :=
  [Event.printf (toString (code.tdiv 10) ++ " exact\n"),
   Event.printf (toString (code.tmod 10) ++ " approximate\n")]

/-- The unit-test branch of `main` (option `-u` with two further arguments
already converted by `atoi` to `opt_m` and `opt_n`): from `readSeq(seq1, opt_m)`
to `showMatches`.  `seq1` and `seq2` are the contents of the two allocated
arrays before the calls, `checked` the content of the block allocated inside
`countMatches`. -/
def unitTest (verbose : Bool) (checked seq1 seq2 : List Int) (opt_m opt_n : Int) :
    List Event :=
  let s1 := readSeq seq1 opt_m
  let s2 := readSeq seq2 opt_n
  (if verbose then
      [Event.printf ("Testing matches function with sequences " ++ toString opt_m ++
        " and " ++ toString opt_n ++ "\n")]
    else []) ++
  showMatches (countMatches checked s1 s2)

/-- The encoding the specification calls `encodeAsInteger`: digit times
`10 ^ index`, summed over the three indices.  The source has no such function. -/
def specEncodeAsInteger (seq : List Int) : Int :=
  rd seq 0 * 10 ^ 0 + rd seq 1 * 10 ^ 1 + rd seq 2 * 10 ^ 2

/-! ## `blinkN` -/

/-- The loop of `blinkN` with `n` iterations left: LED on, sleep 200 ms, LED
off, sleep 200 ms. -/
def blinkLoop (led : Nat) : Nat → List Event
  | 0 => []
  | n + 1 =>
    Event.writeLED led HIGH :: Event.nanosleep (200 / 1000) ((200 % 1000) * 1000000) ::
    Event.writeLED led LOW :: Event.nanosleep (200 / 1000) ((200 % 1000) * 1000000) ::
    blinkLoop led n

/-- The function `blinkN(gpio, led, c)`: `for (i = 0; i < c; i++)`, which runs
`c` times for `c > 0` and not at all otherwise. -/
def blinkN (led : Nat) (c : Int) : List Event := blinkLoop led c.toNat

/-- The calls to `writeLED` within a list of events, as `(led, value)`. -/
def ledWrites : List Event → List (Nat × Nat)
  | [] => []
  | Event.writeLED led value :: es => (led, value) :: ledWrites es
  | _ :: es => ledWrites es

/-- Number of `Try Again!` announcements in a list of events. -/
def countTryAgain : List Event → Nat
  | [] => 0
  | Event.printf text :: es => (if text = "Try Again!\n" then 1 else 0) + countTryAgain es
  | _ :: es => countTryAgain es

/-! ## The digit-entry loop of `main` -/

/-- What the environment supplies to one evaluation of the loop condition and
body of the digit-entry loop: the timer register read by the condition, the
value `readButton` returns, and the timer register read by `ts = *(piTime + 1)`
(read only while `count == 0`). -/
structure Poll where
  now : Nat
  button : Int
  reset : Nat
  deriving DecidableEq, Repr

/-- The loop `while ((*(piTime + 1) - ts) < TIMEOUT)` of `main` from the state
`(ts, count)`; the subtraction is on `uint32_t`.  The result is the final
`count`, or `none` when the supplied polls end while the loop is still running. -/
def digitLoop : List Poll → Nat → Int → Option Int
  | [], _, _ => none
  | p :: ps, ts, count =>
    if (p.now % 2 ^ 32 + 2 ^ 32 - ts % 2 ^ 32) % 2 ^ 32 < TIMEOUT then
      let count1 := if p.button ≠ 0 then count + 1 else count
      let ts1 := if count1 = 0 then p.reset else ts
      digitLoop ps ts1 count1
    else some count

/-- Entry of one digit: `count = 0`, `ts = *(piTime + 1)` (the value `ts0`),
then the polling loop. -/
def enterCount (ts0 : Nat) (polls : List Poll) : Option Int := digitLoop polls ts0 0

/-- While `count` is still 0, every evaluation of the loop condition reads the
timer less than `TIMEOUT` after the preceding read into `ts`. -/
def promptWhileZero : Nat → List Poll → Prop
  | _, [] => True
  | ts, p :: ps =>
    (p.now % 2 ^ 32 + 2 ^ 32 - ts % 2 ^ 32) % 2 ^ 32 < TIMEOUT ∧
      (p.button = 0 → promptWhileZero p.reset ps)

/-- Number of transitions from not pressed to pressed in a sequence of button
samples, the button being not pressed before the first sample (the
edge-triggered count the specification describes). -/
def risingEdges : Bool → List Bool → Nat
  | _, [] => 0
  | prev, b :: bs => (if prev = false ∧ b = true then 1 else 0) + risingEdges b bs

/-! ## The round loop of `main` -/

/-- The variables `found` and `attempts` of `main`. -/
structure GameState where
  found : Int
  attempts : Int
  deriving DecidableEq, Repr

/-- Why a run of the embedded loop yields no final state. -/
inductive Halt where
  /-- An array was read outside its bounds (undefined behaviour in C). -/
  | outOfBounds
  /-- The supplied round inputs ended while `found` was still 0. -/
  | awaitingInput
  deriving DecidableEq, Repr

/-- Start of a round after `attempts++`: from the second round on, the text
`Try Again!` and three blinks of the red LED. -/
def tryAgain (attempts : Int) : List Event :=
  if attempts > 1 then Event.printf "Try Again!\n" :: blinkN LED2 3 else []

/-- Events of one iteration `i` of the loop `for (int i = 0; i < 3; i++)` in
which the digit-entry loop ends with `count`: the prompt, one `1` per
increment of `count`, a newline, a delay of one second, one red blink and
`count` green blinks. -/
def digitEvents (i : Nat) (count : Int) : List Event :=
  Event.printf ("Enter Digit " ++ toString (i + 1) ++ " \n") ::
    List.replicate count.toNat (Event.printf "1") ++
  [Event.printf "\n", Event.delayMicroseconds 1000000] ++
  blinkN LED2 1 ++ blinkN LED count

/-- Events of the collection of a guess: the three digit entries, which leave
`attSeq[0..2]` holding the three counts, then a delay of two seconds and two
red blinks. -/
def collectEvents (attSeq : List Int) : List Event :=
  digitEvents 0 (rd attSeq 0) ++ digitEvents 1 (rd attSeq 1) ++ digitEvents 2 (rd attSeq 2) ++
  [Event.delayMicroseconds 2000000] ++ blinkN LED2 2

/-- The read `attSeq[i]` of the validation loop.  There `i` is the variable
`i` declared at the top of `main` (the `i` of the collection loop is out of
scope), which is never assigned, so its value is a parameter; `attSeq` has 3
elements. -/
def readAttSeq (attSeq : List Int) (i : Int) : Except Halt Int :=
  if 0 ≤ i ∧ i < 3 then Except.ok (rd attSeq i.toNat) else Except.error Halt.outOfBounds

/-- The validation loop `for (int k = 0; k < 3; k++) if (attSeq[i] != 0) valid++;`
starting from `valid = 0`. -/
def validCount (attSeq : List Int) (i : Int) : Except Halt Int :=
  [0, 1, 2].foldlM
    (fun (valid : Int) (_ : Nat) =>
      (readAttSeq attSeq i).map (fun v => if v ≠ 0 then valid + 1 else valid))
    0

/-- The blinks both scoring branches of `main` emit for `result`:
`result / 10` green blinks, one red blink, `result % 10` green blinks, each
followed by a delay of one second. -/
def feedback (result : Int) : List Event :=
  blinkN LED (result.tdiv 10) ++ [Event.delayMicroseconds 1000000] ++
  blinkN LED2 1 ++ [Event.delayMicroseconds 1000000] ++
  blinkN LED (result.tmod 10) ++ [Event.delayMicroseconds 1000000]

/-- The block `if (valid == 3) { ... }` of `main`: the call of `countMatches`,
the debug print, and the branches `result == 30` (which increments `found`)
and `(result % 10) != 0 || (result / 10) != 0`.  `checked` is the content of
the marker block allocated by this call of `countMatches`. -/
def scoreRound (debug : Bool) (checked theSeq attSeq : List Int) (st : GameState) :
    GameState × List Event :=
  let result := countMatches checked theSeq attSeq
  let shown := if debug then showMatches result else []
  if result = 30 then
    ({ st with found := st.found + 1 },
      shown ++ feedback result ++ [Event.delayMicroseconds 500000])
  else if result.tmod 10 ≠ 0 ∨ result.tdiv 10 ≠ 0 then
    (st, shown ++ feedback result)
  else (st, shown)

/-- The events of the scoring block after the optional debug print: the blinks
of the branch `result == 30`, those of the branch
`(result % 10) != 0 || (result / 10) != 0`, or nothing. -/
def scoreFeedback (result : Int) : List Event :=
  if result = 30 then feedback result ++ [Event.delayMicroseconds 500000]
  else if result.tmod 10 ≠ 0 ∨ result.tdiv 10 ≠ 0 then feedback result
  else []

/-- One iteration of `while (!found)`, the digit-entry loops having produced
the guess `attSeq`; `checked` is the content of the marker block that
`countMatches` allocates if the round calls it. -/
def round (debug : Bool) (theSeq : List Int) (i : Int) (st : GameState)
    (attSeq checked : List Int) : Except Halt (GameState × List Event) :=
  let st1 : GameState := { st with attempts := st.attempts + 1 }
  let ev1 := tryAgain st1.attempts ++ collectEvents attSeq
  match validCount attSeq i with
  | Except.error e => Except.error e
  | Except.ok valid =>
    if valid = 3 then
      Except.ok ((scoreRound debug checked theSeq attSeq st1).1,
        ev1 ++ (scoreRound debug checked theSeq attSeq st1).2)
    else Except.ok (st1, ev1)

/-- What one iteration of `while (!found)` takes from outside: the guess the
three digit-entry loops leave in `attSeq`, and the content of the marker block
`countMatches` allocates in that round. -/
structure RoundInput where
  attSeq : List Int
  checked : List Int
  deriving DecidableEq, Repr

/-- The round input with the guess `attSeq` and a zero-filled marker block. -/
def clearedInput (attSeq : List Int) : RoundInput := { attSeq := attSeq, checked := [0, 0, 0] }

/-- The loop `while (!found)` of `main`, fed with the inputs of the rounds in
order. -/
def gameLoop (debug : Bool) (theSeq : List Int) (i : Int) :
    List RoundInput → GameState → Except Halt (GameState × List Event)
  | [], st => if st.found ≠ 0 then Except.ok (st, []) else Except.error Halt.awaitingInput
  | g :: gs, st =>
    if st.found ≠ 0 then Except.ok (st, [])
    else
      match round debug theSeq i st g.attSeq g.checked with
      | Except.error e => Except.error e
      | Except.ok r =>
        match gameLoop debug theSeq i gs r.1 with
        | Except.error e => Except.error e
        | Except.ok r2 => Except.ok (r2.1, r.2 ++ r2.2)

/-- The code of `main` after the loop: with `found` set it reports the number
of attempts and blinks the green LED three times while the red LED is on. -/
def report (st : GameState) : List Event :=
  if st.found ≠ 0 then
    [Event.printf "You guessed the sequence correctly!\n",
     Event.printf ("You took " ++ toString st.attempts ++ " attempts!\n\n"),
     Event.writeLED LED2 HIGH] ++ blinkN LED 3 ++
    [Event.writeLED LED2 LOW,
     Event.printf "Thank you for playing Mastermind! Have a great day :)\n"]
  else [Event.printf "Sequence not found\n"]

/-- The game part of `main`: `found = 0, attempts = 0`, the round loop, then
the report. -/
def playGame (debug : Bool) (theSeq : List Int) (i : Int) (inputs : List RoundInput) :
    Except Halt (GameState × List Event) :=
  match gameLoop debug theSeq i inputs { found := 0, attempts := 0 } with
  | Except.error e => Except.error e
  | Except.ok r => Except.ok (r.1, r.2 ++ report r.1)

/-! ## Auxiliary lemmas -/

/-- A list of length 3 is a literal with three entries. -/
theorem length_three (l : List Int) (h : l.length = 3) : ∃ a b c, l = [a, b, c] := by
  match l, h with
  | [a, b, c], _ => exact ⟨a, b, c, rfl⟩

set_option maxHeartbeats 4000000 in
/-- The final counters of `countMatches` on arbitrary integer sequences of
length 3 (markers cleared): both are non-negative, their sum is at most 3, and
`exact` is 3 exactly when the sequences agree at every position.  The nine
comparisons `seq1[j] == seq2[i]` decide the whole run. -/
theorem countMatchesFrom_facts (a0 a1 a2 b0 b1 b2 : Int) :
    0 ≤ (countMatchesFrom [0, 0, 0] [a0, a1, a2] [b0, b1, b2]).exact ∧
    0 ≤ (countMatchesFrom [0, 0, 0] [a0, a1, a2] [b0, b1, b2]).approximate ∧
    (countMatchesFrom [0, 0, 0] [a0, a1, a2] [b0, b1, b2]).exact +
      (countMatchesFrom [0, 0, 0] [a0, a1, a2] [b0, b1, b2]).approximate ≤ 3 ∧
    ((countMatchesFrom [0, 0, 0] [a0, a1, a2] [b0, b1, b2]).exact = 3 ↔
      a0 = b0 ∧ a1 = b1 ∧ a2 = b2) := by
  by_cases h00 : a0 = b0 <;> by_cases h01 : a0 = b1 <;> by_cases h02 : a0 = b2 <;>
  by_cases h10 : a1 = b0 <;> by_cases h11 : a1 = b1 <;> by_cases h12 : a1 = b2 <;>
  by_cases h20 : a2 = b0 <;> by_cases h21 : a2 = b1 <;> by_cases h22 : a2 = b2 <;>
  simp_all [countMatchesFrom, matchLoop, matchStep, scanSecret, rd]

set_option maxHeartbeats 4000000 in
/-- After each of the first `n ≤ 3` iterations of the outer loop of
`countMatches` the counter `approximate` is non-negative. -/
theorem matchLoop_approximate_nonneg (a0 a1 a2 b0 b1 b2 : Int) (n : Nat) (hn : n ≤ 3) :
    0 ≤ (matchLoop [a0, a1, a2] [b0, b1, b2] (List.range n)
      { exact := 0, approximate := 0, checked := [0, 0, 0] }).approximate := by
  interval_cases n
  · simp [matchLoop]
  · by_cases h00 : a0 = b0 <;> by_cases h10 : a1 = b0 <;> by_cases h20 : a2 = b0 <;>
    simp_all [matchLoop, matchStep, scanSecret, rd, List.range, List.range.loop]
  · by_cases h00 : a0 = b0 <;> by_cases h01 : a0 = b1 <;>
    by_cases h10 : a1 = b0 <;> by_cases h11 : a1 = b1 <;>
    by_cases h20 : a2 = b0 <;> by_cases h21 : a2 = b1 <;>
    simp_all [matchLoop, matchStep, scanSecret, rd, List.range, List.range.loop]
  · by_cases h00 : a0 = b0 <;> by_cases h01 : a0 = b1 <;> by_cases h02 : a0 = b2 <;>
    by_cases h10 : a1 = b0 <;> by_cases h11 : a1 = b1 <;> by_cases h12 : a1 = b2 <;>
    by_cases h20 : a2 = b0 <;> by_cases h21 : a2 = b1 <;> by_cases h22 : a2 = b2 <;>
    simp_all [matchLoop, matchStep, scanSecret, rd, List.range, List.range.loop]

/-- Splitting a code `e * 10 + a` with `0 ≤ e` and `0 ≤ a ≤ 9` by `/ 10` and
`% 10` gives back `e` and `a`. -/
theorem decode_code (e a : Int) (he : 0 ≤ e) (ha : 0 ≤ a) (ha9 : a ≤ 9) :
    (e * 10 + a).tdiv 10 = e ∧ (e * 10 + a).tmod 10 = a := by
  have h : 0 ≤ e * 10 + a := by omega
  rw [Int.tdiv_eq_ediv h (by norm_num), Int.tmod_eq_emod h (by norm_num)]
  omega

/-- The facts of `countMatchesFrom_facts` for lists of length 3. -/
theorem countMatchesFrom_list_facts (A B : List Int) (hA : A.length = 3) (hB : B.length = 3) :
    0 ≤ (countMatchesFrom [0, 0, 0] A B).exact ∧
    0 ≤ (countMatchesFrom [0, 0, 0] A B).approximate ∧
    (countMatchesFrom [0, 0, 0] A B).exact + (countMatchesFrom [0, 0, 0] A B).approximate ≤ 3 ∧
    ((countMatchesFrom [0, 0, 0] A B).exact = 3 ↔ B = A) := by
  obtain ⟨a0, a1, a2, rfl⟩ := length_three A hA
  obtain ⟨b0, b1, b2, rfl⟩ := length_three B hB
  have h := countMatchesFrom_facts a0 a1 a2 b0 b1 b2
  refine ⟨h.1, h.2.1, h.2.2.1, h.2.2.2.trans ?_⟩
  constructor
  · rintro ⟨h0, h1, h2⟩
    rw [h0, h1, h2]
  · intro hEq
    injection hEq with h0 t0
    injection t0 with h1 t1
    injection t1 with h2 _
    exact ⟨h0.symm, h1.symm, h2.symm⟩

/-- Pass 1 of the specification with its comparison written as
`secret[i] == guess[i]`. -/
theorem specPass1Step_comm (secret guess : List Int) (st : SpecState) (i : Nat) :
    specPass1Step secret guess st i =
      if rd secret i = rd guess i then
        { st with exact := st.exact + 1,
                  secretUsed := st.secretUsed.set i true,
                  guessUsed := st.guessUsed.set i true }
      else st := by
  unfold specPass1Step
  by_cases h : rd secret i = rd guess i
  · rw [if_pos h, if_pos h.symm]
  · rw [if_neg h, if_neg (fun h2 => h h2.symm)]

set_option maxHeartbeats 8000000 in
/-- On arbitrary integer sequences of length 3 (markers cleared) the loop of
`countMatches` ends with the `exact` count of the two-pass algorithm and with
an `approximate` count that is at most the two-pass one. -/
theorem single_pass_vs_two_pass (a0 a1 a2 b0 b1 b2 : Int) :
    (countMatchesFrom [0, 0, 0] [a0, a1, a2] [b0, b1, b2]).exact =
      ((specScore [a0, a1, a2] [b0, b1, b2]).1 : Int) ∧
    (countMatchesFrom [0, 0, 0] [a0, a1, a2] [b0, b1, b2]).approximate ≤
      ((specScore [a0, a1, a2] [b0, b1, b2]).2 : Int) := by
  by_cases h00 : a0 = b0 <;> by_cases h01 : a0 = b1 <;> by_cases h02 : a0 = b2 <;>
  by_cases h10 : a1 = b0 <;> by_cases h11 : a1 = b1 <;> by_cases h12 : a1 = b2 <;>
  by_cases h20 : a2 = b0 <;> by_cases h21 : a2 = b1 <;> by_cases h22 : a2 = b2 <;>
  simp_all [countMatchesFrom, matchLoop, matchStep, scanSecret, rd, specScore, specPass1Step_comm,
    specPass2Step, specScan]

/-- With cleared markers the value `countMatches` returns is 30 exactly when
its `exact` counter is 3, and then the guess is the secret. -/
theorem countMatches_eq_thirty (A B : List Int) (hA : A.length = 3) (hB : B.length = 3) :
    (countMatches [0, 0, 0] A B = 30 ↔ (countMatchesFrom [0, 0, 0] A B).exact = 3) ∧
    (countMatches [0, 0, 0] A B = 30 ↔ B = A) := by
  obtain ⟨h0, h1, h2, h3⟩ := countMatchesFrom_list_facts A B hA hB
  have key : countMatches [0, 0, 0] A B = 30 ↔ (countMatchesFrom [0, 0, 0] A B).exact = 3 := by
    unfold countMatches encodeMatches
    constructor <;> intro h <;> omega
  exact ⟨key, key.trans h3⟩

/-- With cleared markers, for sequences `A`, `B` of length 3 the value
`countMatches` returns is `exact * 10 + approximate` for counters with
`0 ≤ exact ≤ 3`, `0 ≤ approximate ≤ 3` and `exact + approximate ≤ 3`, and
`approximate` is non-negative after every iteration of the outer loop. -/
theorem countMatches_cleared_bounds (A B : List Int) (hA : A.length = 3) (hB : B.length = 3) :
    countMatches [0, 0, 0] A B =
      (countMatchesFrom [0, 0, 0] A B).exact * 10 + (countMatchesFrom [0, 0, 0] A B).approximate ∧
    0 ≤ (countMatchesFrom [0, 0, 0] A B).exact ∧ (countMatchesFrom [0, 0, 0] A B).exact ≤ 3 ∧
    0 ≤ (countMatchesFrom [0, 0, 0] A B).approximate ∧
    (countMatchesFrom [0, 0, 0] A B).approximate ≤ 3 ∧
    (countMatchesFrom [0, 0, 0] A B).exact + (countMatchesFrom [0, 0, 0] A B).approximate ≤ 3 ∧
    ∀ n : Nat, n ≤ 3 →
      0 ≤ (matchLoop A B (List.range n)
        { exact := 0, approximate := 0, checked := [0, 0, 0] }).approximate := by
  obtain ⟨h0, h1, h2, _⟩ := countMatchesFrom_list_facts A B hA hB
  refine ⟨rfl, h0, by omega, h1, by omega, h2, ?_⟩
  intro n hn
  obtain ⟨a0, a1, a2, rfl⟩ := length_three A hA
  obtain ⟨b0, b1, b2, rfl⟩ := length_three B hB
  exact matchLoop_approximate_nonneg a0 a1 a2 b0 b1 b2 n hn

/-- With cleared markers, `countMatches` applied to a sequence of length 3 and
itself returns 30, with `exact = 3` and `approximate = 0`. -/
theorem countMatches_cleared_self (A : List Int) (hA : A.length = 3) :
    countMatches [0, 0, 0] A A = 30 ∧ (countMatchesFrom [0, 0, 0] A A).exact = 3 ∧
    (countMatchesFrom [0, 0, 0] A A).approximate = 0 := by
  obtain ⟨h0, h1, h2, h3⟩ := countMatchesFrom_list_facts A A hA hA
  have he : (countMatchesFrom [0, 0, 0] A A).exact = 3 := h3.mpr rfl
  have ha : (countMatchesFrom [0, 0, 0] A A).approximate = 0 := by omega
  refine ⟨?_, he, ha⟩
  unfold countMatches encodeMatches
  omega

/-! ## Theorems on `countMatches` -/

/-- C1 (divergence): for the secret `[1, 2, 2]` and the guess `[2, 2, 3]`, the
markers starting cleared, `countMatches` returns 10, that is 1 exact and 0
approximate matches, while the two-pass algorithm of the specification scores
1 exact and 1 approximate match: the guess digit at index 0 takes the secret
position 1, which the exact match at index 1 then claims, and the guess digit
is not matched again against the free secret position 2.  On the three
examples of the specification both agree: 20, 12 and 10. -/
theorem countMatches_differs_from_two_pass :
    countMatches [0, 0, 0] [1, 2, 2] [2, 2, 3] = 10 ∧ specScore [1, 2, 2] [2, 2, 3] = (1, 1) ∧
    countMatches [0, 0, 0] [1, 2, 2] [2, 2, 3] ≠
      ((specScore [1, 2, 2] [2, 2, 3]).1 : Int) * 10 + ((specScore [1, 2, 2] [2, 2, 3]).2 : Int) ∧
    (countMatches [0, 0, 0] [1, 1, 2] [1, 1, 1] = 20 ∧ specScore [1, 1, 2] [1, 1, 1] = (2, 0)) ∧
    (countMatches [0, 0, 0] [1, 2, 3] [3, 2, 1] = 12 ∧ specScore [1, 2, 3] [3, 2, 1] = (1, 2)) ∧
    (countMatches [0, 0, 0] [2, 2, 2] [2, 1, 1] = 10 ∧ specScore [2, 2, 2] [2, 1, 1] = (1, 0)) := by
  decide

/-- C2 (divergence): the marker block is read before it is written.  When it
holds `[1, 0, 0]`, `countMatches` on `A = B = [2, 3, 2]` takes the exact branch
at index 0, finds `checked[0]` set and decrements `approximate` from 0 to -1:
it ends with `exact = 3`, `approximate = -1` and returns 29.  When the block
holds `[1656922573, 5, 0]`, the secret `[1, 2, 3]` and the guess `[1, 3, 2]` are
scored 10 instead of the 12 obtained from cleared markers. -/
theorem approximate_negative_with_set_marker :
    countMatchesFrom [1, 0, 0] [2, 3, 2] [2, 3, 2] =
      { exact := 3, approximate := -1, checked := [1, 1, 1] } ∧
    (matchLoop [2, 3, 2] [2, 3, 2] (List.range 1)
      { exact := 0, approximate := 0, checked := [1, 0, 0] }).approximate = -1 ∧
    ¬ (0 ≤ (countMatchesFrom [1, 0, 0] [2, 3, 2] [2, 3, 2]).approximate) ∧
    countMatches [1, 0, 0] [2, 3, 2] [2, 3, 2] = 29 ∧
    countMatches [1656922573, 5, 0] [1, 2, 3] [1, 3, 2] = 10 ∧
    countMatches [0, 0, 0] [1, 2, 3] [1, 3, 2] = 12 := by
  decide

/-- C3 (divergence): when the marker block holds `[1, 0, 0]`, `countMatches`
applied to `A = [2, 3, 2]` and itself returns 29, not 30; when every marker is
set, `[1, 2, 3]` against itself gives 27. -/
theorem countMatches_self_with_set_marker :
    countMatches [1, 0, 0] [2, 3, 2] [2, 3, 2] = 29 ∧
    countMatches [1, 0, 0] [2, 3, 2] [2, 3, 2] ≠ 30 ∧
    countMatches [1, 1, 1] [1, 2, 3] [1, 2, 3] = 27 := by
  decide

/-- C14: scoring is not symmetric: for `A = [1, 2, 2]` and `B = [2, 2, 3]`, both
over `[1, 3]`, and cleared markers, `countMatches` gives 10 for `(A, B)` and 11
for `(B, A)`. -/
theorem countMatches_not_symmetric :
    ∃ A B : List Int, A.length = 3 ∧ B.length = 3 ∧
      (∀ x ∈ A, 1 ≤ x ∧ x ≤ 3) ∧ (∀ x ∈ B, 1 ≤ x ∧ x ≤ 3) ∧
      countMatches [0, 0, 0] A B = 10 ∧ countMatches [0, 0, 0] B A = 11 ∧
      countMatches [0, 0, 0] A B ≠ countMatches [0, 0, 0] B A :=
  ⟨[1, 2, 2], [2, 2, 3], by decide⟩

/-- C17: for a secret and a guess of length 3 over `[1, 3]`, markers cleared,
`countMatches` ends with the `exact` count of the two-pass algorithm and an
`approximate` count that is at most the one of the two-pass algorithm. -/
theorem countMatches_below_two_pass (secret guess : List Int)
    (hS : secret.length = 3) (hG : guess.length = 3)
    (hSr : ∀ x ∈ secret, 1 ≤ x ∧ x ≤ 3) (hGr : ∀ x ∈ guess, 1 ≤ x ∧ x ≤ 3) :
    (countMatchesFrom [0, 0, 0] secret guess).exact = ((specScore secret guess).1 : Int) ∧
    (countMatchesFrom [0, 0, 0] secret guess).approximate ≤ ((specScore secret guess).2 : Int) ∧
    countMatches [0, 0, 0] secret guess ≤
      ((specScore secret guess).1 : Int) * 10 + ((specScore secret guess).2 : Int) := by
  obtain ⟨a0, a1, a2, rfl⟩ := length_three secret hS
  obtain ⟨b0, b1, b2, rfl⟩ := length_three guess hG
  obtain ⟨h1, h2⟩ := single_pass_vs_two_pass a0 a1 a2 b0 b1 b2
  refine ⟨h1, h2, ?_⟩
  unfold countMatches encodeMatches
  omega

/-- Witness of `countMatches_below_two_pass`: secret `[1, 2, 2]`, guess
`[2, 2, 3]`, where the approximate count is strictly smaller. -/
theorem countMatches_below_two_pass_witness :
    (∀ x ∈ ([1, 2, 2] : List Int), 1 ≤ x ∧ x ≤ 3) ∧
    (∀ x ∈ ([2, 2, 3] : List Int), 1 ≤ x ∧ x ≤ 3) ∧
    (countMatchesFrom [0, 0, 0] [1, 2, 2] [2, 2, 3]).exact =
      ((specScore [1, 2, 2] [2, 2, 3]).1 : Int) ∧
    (countMatchesFrom [0, 0, 0] [1, 2, 2] [2, 2, 3]).approximate ≤
      ((specScore [1, 2, 2] [2, 2, 3]).2 : Int) :=
  ⟨by decide, by decide,
    (countMatches_below_two_pass [1, 2, 2] [2, 2, 3] rfl rfl (by decide) (by decide)).1,
    (countMatches_below_two_pass [1, 2, 2] [2, 2, 3] rfl rfl (by decide) (by decide)).2.1⟩

/-! ## The round loop -/

theorem validCount_in_bounds (attSeq : List Int) (i : Int) (hi : 0 ≤ i ∧ i < 3) :
    validCount attSeq i = Except.ok (if rd attSeq i.toNat ≠ 0 then 3 else 0) := by
  unfold validCount readAttSeq
  rw [if_pos hi]
  by_cases h : rd attSeq i.toNat = 0 <;>
  simp [List.foldlM, Except.map, h, bind, Except.bind, pure, Except.pure]

theorem validCount_eq_three (attSeq : List Int) (i : Int) :
    validCount attSeq i = Except.ok 3 ↔ (0 ≤ i ∧ i < 3) ∧ rd attSeq i.toNat ≠ 0 := by
  by_cases hi : 0 ≤ i ∧ i < 3
  · rw [validCount_in_bounds attSeq i hi]
    by_cases h : rd attSeq i.toNat = 0 <;> simp [h, hi]
  · unfold validCount readAttSeq
    rw [if_neg hi]
    simp [List.foldlM, Except.map, bind, Except.bind, hi]

/-- A round whose guess passes the validation runs the scoring block. -/
theorem round_of_valid (debug : Bool) (checked theSeq attSeq : List Int) (i : Int) (st : GameState)
    (hv : validCount attSeq i = Except.ok 3) :
    round debug theSeq i st attSeq checked =
      Except.ok
        ((scoreRound debug checked theSeq attSeq { st with attempts := st.attempts + 1 }).1,
          tryAgain (st.attempts + 1) ++ collectEvents attSeq ++
            (scoreRound debug checked theSeq attSeq { st with attempts := st.attempts + 1 }).2) := by
  unfold round
  simp [hv]

/-- A round whose guess fails the validation only counts the attempt. -/
theorem round_of_invalid (debug : Bool) (checked theSeq attSeq : List Int) (i : Int) (st : GameState)
    (hi : 0 ≤ i ∧ i < 3) (hv : validCount attSeq i ≠ Except.ok 3) :
    round debug theSeq i st attSeq checked =
      Except.ok ({ st with attempts := st.attempts + 1 },
        tryAgain (st.attempts + 1) ++ collectEvents attSeq) := by
  have h0 : rd attSeq i.toNat = 0 := by
    by_contra h
    exact hv ((validCount_eq_three attSeq i).mpr ⟨hi, h⟩)
  unfold round
  rw [validCount_in_bounds attSeq i hi]
  simp [h0]

/-- The state the scoring block leaves when the markers start cleared: `found` is incremented exactly when
the guess is the secret; `attempts` is not touched. -/
theorem scoreRound_state (debug : Bool) (theSeq attSeq : List Int) (st : GameState)
    (hS : theSeq.length = 3) (hG : attSeq.length = 3) :
    (scoreRound debug [0, 0, 0] theSeq attSeq st).1 =
      { found := if attSeq = theSeq then st.found + 1 else st.found, attempts := st.attempts } := by
  have h30 := (countMatches_eq_thirty theSeq attSeq hS hG).2
  unfold scoreRound
  by_cases h : attSeq = theSeq
  · rw [if_pos (h30.mpr h), if_pos h]
  · have hne : countMatches [0, 0, 0] theSeq attSeq ≠ 30 := fun hc => h (h30.mp hc)
    simp only [if_neg hne, if_neg h]
    split_ifs <;> rfl

/-- While `found` is 0 the loop runs a round on the next input and goes on
from the state that round leaves. -/
theorem gameLoop_cons (debug : Bool) (theSeq : List Int) (i : Int) (g : RoundInput)
    (gs : List RoundInput) (st : GameState) (r : GameState × List Event)
    (hf : st.found = 0) (hr : round debug theSeq i st g.attSeq g.checked = Except.ok r) :
    gameLoop debug theSeq i (g :: gs) st =
      (gameLoop debug theSeq i gs r.1).map (fun r2 => (r2.1, r.2 ++ r2.2)) := by
  rw [gameLoop]
  simp only [hf, ne_eq, not_true_eq_false, if_false, hr]
  cases gameLoop debug theSeq i gs r.1 <;> rfl

/-- Once `found` is set the loop ends without reading an input. -/
theorem gameLoop_found (debug : Bool) (theSeq : List Int) (i : Int)
    (gs : List RoundInput) (st : GameState) (hf : st.found ≠ 0) :
    gameLoop debug theSeq i gs st = Except.ok (st, []) := by
  cases gs <;> simp [gameLoop, hf]

/-- Every entry of an array of length 3 over `[1, 3]` is non-zero. -/
theorem rd_ne_zero_of_range (A : List Int) (hA : A.length = 3)
    (hAr : ∀ x ∈ A, 1 ≤ x ∧ x ≤ 3) (i : Int) (hi : 0 ≤ i ∧ i < 3) : rd A i.toNat ≠ 0 := by
  obtain ⟨a0, a1, a2, rfl⟩ := length_three A hA
  have h0 := hAr a0 (by simp)
  have h1 := hAr a1 (by simp)
  have h2 := hAr a2 (by simp)
  have hcases : i = 0 ∨ i = 1 ∨ i = 2 := by omega
  rcases hcases with h | h | h <;> subst h <;> simp [rd] <;> omega

/-- The events of the scoring block are the optional debug print followed by
`scoreFeedback`. -/
theorem scoreRound_events (debug : Bool) (checked theSeq attSeq : List Int) (st : GameState) :
    (scoreRound debug checked theSeq attSeq st).2 =
      (if debug then showMatches (countMatches checked theSeq attSeq) else []) ++
        scoreFeedback (countMatches checked theSeq attSeq) := by
  unfold scoreRound scoreFeedback
  by_cases h30 : countMatches checked theSeq attSeq = 30
  · simp [h30]
  · by_cases hg : (countMatches checked theSeq attSeq).tmod 10 ≠ 0 ∨
        (countMatches checked theSeq attSeq).tdiv 10 ≠ 0
    · simp only [if_neg h30, if_pos hg]
    · simp only [if_neg h30, if_neg hg, List.append_nil]

/-- `countTryAgain` of a concatenation is the sum over its parts. -/
theorem countTryAgain_append (xs ys : List Event) :
    countTryAgain (xs ++ ys) = countTryAgain xs + countTryAgain ys := by
  induction xs with
  | nil => simp [countTryAgain]
  | cons e es ih => cases e <;> simp [countTryAgain, ih, Nat.add_assoc]

/-- The events of `blinkN` contain no `Try Again!`. -/
theorem countTryAgain_blinkN (led : Nat) (c : Int) : countTryAgain (blinkN led c) = 0 := by
  unfold blinkN
  induction c.toNat with
  | zero => rfl
  | succ n ih => simp [blinkLoop, countTryAgain, ih]

/-- No text ending in ` exact` and a newline is the text `Try Again!`. -/
theorem append_exact_ne (s : String) : s ++ " exact\n" ≠ "Try Again!\n" := by
  intro h
  have h2 := congrArg (fun t : String => t.data.reverse) h
  simp at h2

/-- No text ending in ` approximate` and a newline is the text `Try Again!`. -/
theorem append_approximate_ne (s : String) : s ++ " approximate\n" ≠ "Try Again!\n" := by
  intro h
  have h2 := congrArg (fun t : String => t.data.reverse) h
  simp at h2

/-- No text starting with `You took ` is the text `Try Again!`. -/
theorem you_took_ne (s t : String) : "You took " ++ s ++ t ≠ "Try Again!\n" := by
  intro h
  have h2 := congrArg String.data h
  simp at h2

/-- The feedback blinks contain no `Try Again!`. -/
theorem countTryAgain_feedback (result : Int) : countTryAgain (feedback result) = 0 := by
  simp [feedback, countTryAgain_append, countTryAgain_blinkN, countTryAgain]

/-- The two lines of `showMatches` contain no `Try Again!`. -/
theorem countTryAgain_showMatches (code : Int) : countTryAgain (showMatches code) = 0 := by
  simp [showMatches, countTryAgain, append_exact_ne, append_approximate_ne]

/-- The echo of the counted polls contains no `Try Again!`. -/
theorem countTryAgain_replicate_one (n : Nat) :
    countTryAgain (List.replicate n (Event.printf "1")) = 0 := by
  induction n with
  | zero => rfl
  | succ n ih =>
    rw [List.replicate_succ]
    simp only [countTryAgain, ih]
    decide

/-- No prompt `Enter Digit ...` is the text `Try Again!`. -/
theorem enter_digit_ne (s : String) : "Enter Digit " ++ s ++ " \n" ≠ "Try Again!\n" := by
  intro h
  have h2 := congrArg (fun t : String => t.data.reverse) h
  simp at h2

/-- The events of one digit entry contain no `Try Again!`. -/
theorem countTryAgain_digitEvents (i : Nat) (count : Int) :
    countTryAgain (digitEvents i count) = 0 := by
  simp [digitEvents, countTryAgain, countTryAgain_append, countTryAgain_blinkN,
    countTryAgain_replicate_one, enter_digit_ne]

/-- The events of the collection of a guess contain no `Try Again!`. -/
theorem countTryAgain_collectEvents (attSeq : List Int) :
    countTryAgain (collectEvents attSeq) = 0 := by
  unfold collectEvents
  simp only [countTryAgain_append, countTryAgain_digitEvents, countTryAgain_blinkN]
  rfl

/-- The blinks of the scoring block contain no `Try Again!`. -/
theorem countTryAgain_scoreFeedback (result : Int) :
    countTryAgain (scoreFeedback result) = 0 := by
  unfold scoreFeedback
  split_ifs <;> simp [countTryAgain_append, countTryAgain_feedback, countTryAgain]

/-- The try-again part holds one `Try Again!` when `attempts > 1`, else none. -/
theorem countTryAgain_tryAgain (attempts : Int) :
    countTryAgain (tryAgain attempts) = if attempts > 1 then 1 else 0 := by
  unfold tryAgain
  split_ifs
  · simp [countTryAgain, countTryAgain_blinkN]
  · rfl

/-- The final report contains no `Try Again!`. -/
theorem countTryAgain_report (st : GameState) : countTryAgain (report st) = 0 := by
  unfold report
  split_ifs
  · simp [countTryAgain, countTryAgain_append, countTryAgain_blinkN, you_took_ne]
  · simp [countTryAgain]

/-- The events of the scoring block contain no `Try Again!`. -/
theorem countTryAgain_scoreRound (debug : Bool) (checked theSeq attSeq : List Int) (st : GameState) :
    countTryAgain (scoreRound debug checked theSeq attSeq st).2 = 0 := by
  rw [scoreRound_events, countTryAgain_append, countTryAgain_scoreFeedback]
  cases debug
  · rfl
  · exact countTryAgain_showMatches _

/-- The scoring block leaves `attempts` as it is and either leaves `found` or
increments it, whatever the markers hold. -/
theorem scoreRound_fields (debug : Bool) (checked theSeq attSeq : List Int) (st : GameState) :
    (scoreRound debug checked theSeq attSeq st).1.attempts = st.attempts ∧
    ((scoreRound debug checked theSeq attSeq st).1.found = st.found ∨
      (scoreRound debug checked theSeq attSeq st).1.found = st.found + 1) := by
  unfold scoreRound
  by_cases h30 : countMatches checked theSeq attSeq = 30
  · simp [h30]
  · by_cases hg : (countMatches checked theSeq attSeq).tmod 10 ≠ 0 ∨
        (countMatches checked theSeq attSeq).tdiv 10 ≠ 0
    · simp [h30, hg]
    · simp [h30, hg]

/-- Shape of every round that yields a state, whatever the markers hold:
`attempts` grows by one, `found` stays or is incremented, and the events are
the try-again part for the incremented `attempts`, then the collection of the
guess, then events without any `Try Again!`. -/
theorem round_ok_shape (debug : Bool) (checked theSeq attSeq : List Int) (i : Int)
    (st : GameState) (r : GameState × List Event)
    (hr : round debug theSeq i st attSeq checked = Except.ok r) :
    r.1.attempts = st.attempts + 1 ∧
    (r.1.found = st.found ∨ r.1.found = st.found + 1) ∧
    ∃ rest, countTryAgain rest = 0 ∧
      r.2 = tryAgain (st.attempts + 1) ++ collectEvents attSeq ++ rest := by
  unfold round at hr
  cases hv : validCount attSeq i with
  | error e => rw [hv] at hr; cases hr
  | ok valid =>
    rw [hv] at hr
    by_cases h3 : valid = 3
    · simp only [h3, if_true] at hr
      injection hr with hr
      subst hr
      obtain ⟨ha, hf⟩ := scoreRound_fields debug checked theSeq attSeq
        { st with attempts := st.attempts + 1 }
      exact ⟨ha, hf, _, countTryAgain_scoreRound debug checked theSeq attSeq _, rfl⟩
    · simp only [h3, if_false] at hr
      injection hr with hr
      subst hr
      exact ⟨rfl, Or.inl rfl, [], rfl, (List.append_nil _).symm⟩

/-- With the validation index in bounds every round yields a state. -/
theorem round_ok_of_in_bounds (debug : Bool) (checked theSeq attSeq : List Int) (i : Int)
    (st : GameState) (hi : 0 ≤ i ∧ i < 3) :
    ∃ r, round debug theSeq i st attSeq checked = Except.ok r := by
  by_cases hv : validCount attSeq i = Except.ok 3
  · exact ⟨_, round_of_valid debug checked theSeq attSeq i st hv⟩
  · exact ⟨_, round_of_invalid debug checked theSeq attSeq i st hi hv⟩

/-- Shape of a round with cleared markers and the validation index in bounds:
`found` is incremented exactly when the guess passes the validation and is
the secret. -/
theorem round_shape (debug : Bool) (theSeq attSeq : List Int) (i : Int) (st : GameState)
    (hS : theSeq.length = 3) (hG : attSeq.length = 3) (hi : 0 ≤ i ∧ i < 3) :
    ∃ rest, countTryAgain rest = 0 ∧
      round debug theSeq i st attSeq [0, 0, 0] =
        Except.ok
          ({ found := if rd attSeq i.toNat ≠ 0 ∧ attSeq = theSeq then st.found + 1
                      else st.found,
             attempts := st.attempts + 1 },
            tryAgain (st.attempts + 1) ++ collectEvents attSeq ++ rest) := by
  by_cases hv : validCount attSeq i = Except.ok 3
  · refine ⟨(scoreRound debug [0, 0, 0] theSeq attSeq { st with attempts := st.attempts + 1 }).2,
      countTryAgain_scoreRound _ _ _ _ _, ?_⟩
    rw [round_of_valid debug [0, 0, 0] theSeq attSeq i st hv,
      scoreRound_state debug theSeq attSeq _ hS hG]
    exact congrArg Except.ok
      (Prod.ext (by simp [((validCount_eq_three attSeq i).mp hv).2]) rfl)
  · have h0 : rd attSeq i.toNat = 0 := by
      by_contra h
      exact hv ((validCount_eq_three attSeq i).mpr ⟨hi, h⟩)
    refine ⟨[], rfl, ?_⟩
    rw [round_of_invalid debug [0, 0, 0] theSeq attSeq i st hi hv, List.append_nil]
    exact congrArg Except.ok (Prod.ext (by simp [h0]) rfl)

/-- Every run of the loop that ends, entered with `found = 0` and
`attempts ≥ 0`, ends with `found` set after at least one more round, and its
events contain one `Try Again!` per round played, except for a round entered
with `attempts = 0`. -/
theorem gameLoop_signal_count (debug : Bool) (theSeq : List Int) (i : Int) :
    ∀ (inputs : List RoundInput) (st st1 : GameState) (ev : List Event),
      st.found = 0 → 0 ≤ st.attempts →
      gameLoop debug theSeq i inputs st = Except.ok (st1, ev) →
      st1.found ≠ 0 ∧ st.attempts + 1 ≤ st1.attempts ∧
      (countTryAgain ev : Int) =
        st1.attempts - st.attempts - (if st.attempts = 0 then 1 else 0) := by
  intro inputs
  induction inputs with
  | nil =>
    intro st st1 ev hf _ h
    simp [gameLoop, hf] at h
  | cons g gs ih =>
    intro st st1 ev hf ha h
    cases hr : round debug theSeq i st g.attSeq g.checked with
    | error e =>
      rw [gameLoop] at h
      simp [hf, hr] at h
    | ok r =>
      obtain ⟨hatt, hfound, rest, hrest, hev⟩ :=
        round_ok_shape debug g.checked theSeq g.attSeq i st r hr
      rw [gameLoop_cons debug theSeq i g gs st r hf hr] at h
      have hcount : (countTryAgain r.2 : Int) = if st.attempts = 0 then 0 else 1 := by
        rw [hev]
        simp only [countTryAgain_append, countTryAgain_tryAgain, countTryAgain_collectEvents,
          hrest]
        by_cases h0 : st.attempts = 0
        · simp [h0]
        · have h1 : st.attempts + 1 > 1 := by omega
          simp [h0, h1]
      by_cases hf1 : r.1.found = 0
      · cases h2 : gameLoop debug theSeq i gs r.1 with
        | error e => rw [h2] at h; simp [Except.map] at h
        | ok r2 =>
          rw [h2] at h
          simp only [Except.map] at h
          injection h with h
          injection h with hs he
          obtain ⟨q1, q2, q3⟩ := ih r.1 r2.1 r2.2 hf1 (by omega) (by rw [h2])
          have hne : ¬ (r.1.attempts = 0) := by omega
          rw [if_neg hne] at q3
          subst hs
          subst he
          refine ⟨q1, by omega, ?_⟩
          rw [countTryAgain_append]
          push_cast
          rw [hcount, q3, hatt]
          split_ifs <;> omega
      · rw [gameLoop_found debug theSeq i gs r.1 hf1] at h
        simp only [Except.map] at h
        injection h with h
        injection h with hs he
        subst hs
        subst he
        refine ⟨hf1, by omega, ?_⟩
        rw [List.append_nil, hcount, hatt]
        split_ifs <;> omega

/-- The loop started with `found = 0` and `attempts = k ≥ 0` on rounds with
cleared markers, of which the first with a guess equal to the secret comes
after the guesses `earlier`: the loop ends with `found = 1` and
`attempts = k + earlier.length + 1`, whatever inputs follow; the events begin
with the try-again part and the collection of the first guess, and contain one
`Try Again!` per round, except for a round entered with `attempts = 0`. -/
theorem gameLoop_tryAgain_count (debug : Bool) (secret : List Int) (i : Int)
    (hS : secret.length = 3) (hi : 0 ≤ i ∧ i < 3) (hnz : rd secret i.toNat ≠ 0) :
    ∀ (earlier : List (List Int)), (∀ g ∈ earlier, g.length = 3 ∧ g ≠ secret) →
      ∀ k : Int, 0 ≤ k →
      ∃ ev, (∀ later, gameLoop debug secret i
            (earlier.map clearedInput ++ clearedInput secret :: later)
            { found := 0, attempts := k } =
          Except.ok ({ found := 1, attempts := k + earlier.length + 1 }, ev)) ∧
        countTryAgain ev = (if k = 0 then earlier.length else earlier.length + 1) ∧
        ∃ tail, ev = tryAgain (k + 1) ++ collectEvents ((earlier ++ [secret]).headD []) ++ tail := by
  intro earlier
  induction earlier with
  | nil =>
    intro _ k hk
    obtain ⟨rest, hrest, hr⟩ :=
      round_shape debug secret secret i { found := 0, attempts := k } hS hS hi
    rw [if_pos (And.intro hnz rfl)] at hr
    refine ⟨tryAgain (k + 1) ++ collectEvents secret ++ rest, fun later => ?_, ?_,
      ⟨rest, rfl⟩⟩
    · rw [List.map_nil, List.nil_append,
        gameLoop_cons debug secret i (clearedInput secret) later _ _ rfl hr,
        gameLoop_found debug secret i later _ (by norm_num)]
      simp [Except.map]
    · simp only [countTryAgain_append, countTryAgain_tryAgain, countTryAgain_collectEvents,
        hrest, List.length_nil]
      by_cases h0 : k = 0
      · simp [h0]
      · have h1 : k + 1 > 1 := by omega
        simp [h0, h1]
  | cons g earlier ih =>
    intro hE k hk
    have hg := hE g (by simp)
    obtain ⟨rest, hrest, hr⟩ :=
      round_shape debug secret g i { found := 0, attempts := k } hS hg.1 hi
    rw [if_neg (fun h => hg.2 h.2)] at hr
    obtain ⟨ev2, h2, hc2, _⟩ :=
      ih (fun g2 hg2 => hE g2 (List.mem_cons_of_mem g hg2)) (k + 1) (by omega)
    refine ⟨tryAgain (k + 1) ++ collectEvents g ++ rest ++ ev2, fun later => ?_, ?_,
      ⟨rest ++ ev2, by simp⟩⟩
    · rw [List.map_cons, List.cons_append,
        gameLoop_cons debug secret i (clearedInput g) _ _ _ rfl hr]
      simp only [h2 later, Except.map, List.length_cons]
      congr 3
      push_cast
      ring
    · have hk1 : ¬(k + 1 = 0) := by omega
      simp only [countTryAgain_append, countTryAgain_tryAgain, countTryAgain_collectEvents,
        hrest, hc2, if_neg hk1, List.length_cons]
      by_cases h0 : k = 0
      · simp [h0]
      · have h1 : k + 1 > 1 := by omega
        simp [h0, h1]
        omega

/-- C16: a round emits the try-again signal (the text `Try Again!` and three
blinks of the red LED) at its start, before the digits of the guess are
collected, exactly when it is not the first round (`attempts` was not 0 on
entry), and nowhere else, whatever the guess and the markers are.  A game won
in `n = earlier.length + 1` rounds emits it `n - 1` times, the first round
starting directly with the collection of the first guess; and every game
that ends, on whatever inputs, ends with `found` set and holds
`attempts - 1` signals. -/
theorem tryAgain_every_round_but_first (debug : Bool) (secret : List Int) (i : Int)
    (earlier : List (List Int))
    (hS : secret.length = 3) (hSr : ∀ x ∈ secret, 1 ≤ x ∧ x ≤ 3) (hi : 0 ≤ i ∧ i < 3)
    (hE : ∀ g ∈ earlier, g.length = 3 ∧ g ≠ secret) :
    (∀ (st : GameState) (attSeq checked : List Int), 0 ≤ st.attempts →
      ∃ st1 rest, round debug secret i st attSeq checked =
          Except.ok (st1, tryAgain (st.attempts + 1) ++ collectEvents attSeq ++ rest) ∧
        countTryAgain (collectEvents attSeq) = 0 ∧ countTryAgain rest = 0 ∧
        (tryAgain (st.attempts + 1) = Event.printf "Try Again!\n" :: blinkN LED2 3 ↔
          st.attempts ≠ 0) ∧
        (tryAgain (st.attempts + 1) = [] ↔ st.attempts = 0)) ∧
    ledWrites (Event.printf "Try Again!\n" :: blinkN LED2 3) =
      [(LED2, HIGH), (LED2, LOW), (LED2, HIGH), (LED2, LOW), (LED2, HIGH), (LED2, LOW)] ∧
    (∃ ev, (∀ later, playGame debug secret i
            (earlier.map clearedInput ++ clearedInput secret :: later) =
          Except.ok ({ found := 1, attempts := earlier.length + 1 }, ev)) ∧
        countTryAgain ev = earlier.length ∧
        ∃ tail, ev = collectEvents ((earlier ++ [secret]).headD []) ++ tail) ∧
    (∀ (inputs : List RoundInput) (st : GameState) (ev : List Event),
      playGame debug secret i inputs = Except.ok (st, ev) →
      st.found ≠ 0 ∧ 1 ≤ st.attempts ∧ (countTryAgain ev : Int) = st.attempts - 1) := by
  refine ⟨?_, by decide, ?_, ?_⟩
  · intro st attSeq checked hk
    obtain ⟨r, hr⟩ := round_ok_of_in_bounds debug checked secret attSeq i st hi
    obtain ⟨_, _, rest, hrest, hev⟩ := round_ok_shape debug checked secret attSeq i st r hr
    refine ⟨r.1, rest, ?_, countTryAgain_collectEvents attSeq, hrest, ?_, ?_⟩
    · rw [hr, ← hev]
    · unfold tryAgain
      by_cases h1 : st.attempts + 1 > 1
      · rw [if_pos h1]
        constructor
        · intro _; omega
        · intro _; rfl
      · rw [if_neg h1]
        constructor
        · intro h; exact absurd h (by simp)
        · intro h; omega
    · unfold tryAgain
      by_cases h1 : st.attempts + 1 > 1
      · rw [if_pos h1]
        constructor
        · intro h; exact absurd h (by simp)
        · intro h; omega
      · rw [if_neg h1]
        constructor
        · intro _; omega
        · intro _; rfl
  · obtain ⟨ev, h, hc, tail, ht⟩ := gameLoop_tryAgain_count debug secret i hS hi
      (rd_ne_zero_of_range secret hS hSr i hi) earlier hE 0 (le_refl 0)
    refine ⟨ev ++ report { found := 1, attempts := earlier.length + 1 }, fun later => ?_, ?_,
      ⟨tail ++ report { found := 1, attempts := earlier.length + 1 }, ?_⟩⟩
    · unfold playGame
      rw [h later]
      simp
    · rw [countTryAgain_append, countTryAgain_report, hc]
      simp
    · rw [ht]
      simp [tryAgain]
  · intro inputs st ev h
    unfold playGame at h
    cases hg : gameLoop debug secret i inputs { found := 0, attempts := 0 } with
    | error e => rw [hg] at h; cases h
    | ok r =>
      rw [hg] at h
      injection h with h
      injection h with hs he
      obtain ⟨q1, q2, q3⟩ := gameLoop_signal_count debug secret i inputs
        { found := 0, attempts := 0 } r.1 r.2 rfl (le_refl 0) (by rw [hg])
      subst hs
      subst he
      refine ⟨q1, by simpa using q2, ?_⟩
      rw [countTryAgain_append, countTryAgain_report]
      simp only [if_true] at q3
      push_cast
      omega

/-- Witness of `tryAgain_every_round_but_first`: secret `[1, 2, 3]`, guesses
`[3, 2, 1]` and `[1, 2, 3]`; the signal is emitted once. -/
theorem tryAgain_every_round_but_first_witness :
    ∃ ev, (∀ later, playGame false [1, 2, 3] 0
            ([[3, 2, 1]].map clearedInput ++ clearedInput [1, 2, 3] :: later) =
          Except.ok ({ found := 1, attempts := 2 }, ev)) ∧
        countTryAgain ev = 1 ∧
        ∃ tail, ev = collectEvents [3, 2, 1] ++ tail :=
  (tryAgain_every_round_but_first false [1, 2, 3] 0 [[3, 2, 1]] (by decide) (by decide)
    (by decide) (by decide)).2.2.1

/-! ## Rounds with a set marker, guesses with a zero digit -/

/-- C4 (divergence): in the first round with secret `[1, 2, 3]`, guess
`[1, 2, 3]` and validation index 0 the guess passes the validation and the
`exact` counter of `countMatches` ends at 3, but the marker block holds
`[1, 0, 0]`, so `approximate` ends at -1 and the result is 29: the test
`result == 30` fails, `found` stays 0 and the round emits the feedback for 29
(2 green blinks, 1 red, 9 green). -/
theorem exact_three_without_found :
    validCount [1, 2, 3] 0 = Except.ok 3 ∧
    (countMatchesFrom [1, 0, 0] [1, 2, 3] [1, 2, 3]).exact = 3 ∧
    (∀ k : Nat, k < 3 → rd [1, 2, 3] k = rd [1, 2, 3] k) ∧
    countMatches [1, 0, 0] [1, 2, 3] [1, 2, 3] = 29 ∧
    round false [1, 2, 3] 0 { found := 0, attempts := 0 } [1, 2, 3] [1, 0, 0] =
      Except.ok ({ found := 0, attempts := 1 }, collectEvents [1, 2, 3] ++ feedback 29) ∧
    (ledWrites (feedback 29)).length = 24 :=
  ⟨rfl, by decide, fun _ _ => rfl, by decide, rfl, by decide⟩

/-- C5 (divergence): with secret `[1, 2, 3]` the first guess is `[1, 2, 3]`,
but the marker block of that round holds `[1, 0, 0]`: the round scores 29, the
game is not won after it and the loop waits for another guess.  When the
guess is entered again and the markers are cleared, the game is won and
reports 2 attempts, although the first guess equal to the secret was guess
number 1. -/
theorem game_not_won_at_first_correct_guess :
    gameLoop false [1, 2, 3] 0 [{ attSeq := [1, 2, 3], checked := [1, 0, 0] }]
      { found := 0, attempts := 0 } = Except.error Halt.awaitingInput ∧
    playGame false [1, 2, 3] 0 [{ attSeq := [1, 2, 3], checked := [1, 0, 0] }] =
      Except.error Halt.awaitingInput ∧
    (playGame false [1, 2, 3] 0
      [{ attSeq := [1, 2, 3], checked := [1, 0, 0] },
       { attSeq := [1, 2, 3], checked := [0, 0, 0] }]).map Prod.fst =
      Except.ok { found := 1, attempts := 2 } :=
  ⟨rfl, rfl, rfl⟩

/-- C12 (divergence): the validation loop reads the one element `attSeq[i]`
three times, so for every index `i` in bounds some guess containing a 0 passes
it.  With `i = 0` the guess `[1, 0, 3]` passes, is scored (markers cleared)
against the secret `[1, 2, 3]` as 20 and gets the feedback blinks; against the
secret `[1, 0, 3]` (option `-s 103`) it wins the round. -/
theorem zero_digit_passes_validation :
    (∀ i : Int, 0 ≤ i ∧ i < 3 →
      ∃ g : List Int, g.length = 3 ∧ (0 : Int) ∈ g ∧ validCount g i = Except.ok 3) ∧
    validCount [1, 0, 3] 0 = Except.ok 3 ∧
    countMatches [0, 0, 0] [1, 2, 3] [1, 0, 3] = 20 ∧
    round false [1, 2, 3] 0 { found := 0, attempts := 0 } [1, 0, 3] [0, 0, 0] =
      Except.ok ({ found := 0, attempts := 1 }, collectEvents [1, 0, 3] ++ feedback 20) ∧
    ledWrites (feedback 20) =
      [(LED, HIGH), (LED, LOW), (LED, HIGH), (LED, LOW), (LED2, HIGH), (LED2, LOW)] ∧
    readSeq [0, 0, 0] 103 = [1, 0, 3] ∧
    round false [1, 0, 3] 0 { found := 0, attempts := 0 } [1, 0, 3] [0, 0, 0] =
      Except.ok ({ found := 1, attempts := 1 },
        collectEvents [1, 0, 3] ++ (feedback 30 ++ [Event.delayMicroseconds 500000])) := by
  refine ⟨?_, rfl, by decide, rfl, by decide, by decide, rfl⟩
  intro i hi
  have hcases : i = 0 ∨ i = 1 ∨ i = 2 := by omega
  rcases hcases with h | h | h
  · exact ⟨[1, 0, 0], rfl, by decide, by rw [h]; rfl⟩
  · exact ⟨[0, 1, 0], rfl, by decide, by rw [h]; rfl⟩
  · exact ⟨[0, 0, 1], rfl, by decide, by rw [h]; rfl⟩

/-! ## `readSeq` and the unit-test mode -/

/-- The array `readSeq` leaves, for a non-negative value: hundreds, tens and
ones digit at the indices 0, 1 and 2. -/
theorem readSeq_eq (seq : List Int) (val : Int) (hseq : seq.length = 3) (hv : 0 ≤ val) :
    readSeq seq val = [val / 100 % 10, val / 10 % 10, val % 10] := by
  obtain ⟨a, b, c, rfl⟩ := length_three seq hseq
  have h10 : (0 : Int) ≤ 10 := by norm_num
  have h1 : 0 ≤ val / 10 := by omega
  simp only [readSeq, readSeqStep, List.foldl, List.set]
  rw [Int.tmod_eq_emod hv h10, Int.tdiv_eq_ediv hv h10, Int.tmod_eq_emod h1 h10,
    Int.tdiv_eq_ediv h1 h10, Int.tmod_eq_emod (by omega) h10]
  have h2 : val / 10 / 10 = val / 100 := by omega
  rw [h2]

/-- C7 (counterexample): `readSeq` applied to 123 gives `[1, 2, 3]`, not
`[3, 2, 1]`: index 0 holds the hundreds digit, not `(123 / 10 ^ 0) mod 10`;
applied to 5 it gives `[0, 0, 5]`, not `[5, 0, 0]`. -/
theorem readSeq_not_least_significant_first :
    readSeq [0, 0, 0] 123 = [1, 2, 3] ∧ readSeq [0, 0, 0] 5 = [0, 0, 5] ∧
    rd (readSeq [0, 0, 0] 123) 0 ≠ (123 / 10 ^ 0) % 10 ∧
    readSeq [0, 0, 0] 123 ≠ [3, 2, 1] ∧ readSeq [0, 0, 0] 5 ≠ [5, 0, 0] := by
  decide

/-- C7 (amended): for every non-negative value `readSeq` stores the base-10
digits most-significant first: `seq[i] = (value / 10 ^ (2 - i)) mod 10` for
`i = 0, 1, 2`, so that 123 gives `[1, 2, 3]` and 5 gives `[0, 0, 5]`. -/
theorem readSeq_digits (seq : List Int) (value : Int) (hseq : seq.length = 3)
    (hv : 0 ≤ value) :
    (readSeq seq value).length = 3 ∧
    (∀ i : Nat, i < 3 → rd (readSeq seq value) i = (value / 10 ^ (2 - i)) % 10) ∧
    readSeq seq 123 = [1, 2, 3] ∧ readSeq seq 5 = [0, 0, 5] := by
  refine ⟨?_, ?_, ?_, ?_⟩
  · rw [readSeq_eq seq value hseq hv]; rfl
  · intro i hi
    rw [readSeq_eq seq value hseq hv]
    interval_cases i <;> simp [rd]
  · rw [readSeq_eq seq 123 hseq (by norm_num)]; decide
  · rw [readSeq_eq seq 5 hseq (by norm_num)]; decide

/-- Witness of `readSeq_digits` at the value 123. -/
theorem readSeq_digits_witness :
    (0 : Int) ≤ 123 ∧ readSeq [0, 0, 0] 123 = [1, 2, 3] :=
  ⟨by decide, (readSeq_digits [0, 0, 0] 123 (by decide) (by decide)).2.2.1⟩

/-- C8 (counterexample): for `seq = [1, 2, 3]` the integer
`1 * 10 ^ 0 + 2 * 10 ^ 1 + 3 * 10 ^ 2 = 321` is read back as `[3, 2, 1]`,
which is not `seq`. -/
theorem readSeq_encode_not_identity :
    specEncodeAsInteger [1, 2, 3] = 321 ∧
    readSeq [0, 0, 0] (specEncodeAsInteger [1, 2, 3]) = [3, 2, 1] ∧
    readSeq [0, 0, 0] (specEncodeAsInteger [1, 2, 3]) ≠ [1, 2, 3] := by
  decide

/-- C8 (amended): for every sequence `seq` of length 3 with digits in `[1, 9]`,
`readSeq` applied to `seq[0] * 10 ^ 2 + seq[1] * 10 ^ 1 + seq[2] * 10 ^ 0`
reconstructs `seq` exactly, and applied to
`seq[0] * 10 ^ 0 + seq[1] * 10 ^ 1 + seq[2] * 10 ^ 2` it gives `seq` reversed. -/
theorem readSeq_round_trip (buf seq : List Int) (hbuf : buf.length = 3) (hseq : seq.length = 3)
    (hr : ∀ x ∈ seq, 1 ≤ x ∧ x ≤ 9) :
    readSeq buf (rd seq 0 * 10 ^ 2 + rd seq 1 * 10 ^ 1 + rd seq 2 * 10 ^ 0) = seq ∧
    readSeq buf (specEncodeAsInteger seq) = seq.reverse := by
  obtain ⟨a, b, c, rfl⟩ := length_three seq hseq
  have ha := hr a (by simp)
  have hb := hr b (by simp)
  have hc := hr c (by simp)
  constructor
  · rw [readSeq_eq buf _ hbuf (by simp [rd]; omega)]
    simp only [rd, List.getD_cons_zero, List.getD_cons_succ]
    congr 1
    · omega
    · congr 1
      · omega
      · congr 1
        omega
  · rw [readSeq_eq buf _ hbuf (by simp [specEncodeAsInteger, rd]; omega)]
    simp only [specEncodeAsInteger, rd, List.getD_cons_zero, List.getD_cons_succ, List.reverse_cons,
      List.reverse_nil, List.nil_append, List.cons_append]
    congr 1
    · omega
    · congr 1
      · omega
      · congr 1
        omega

/-- Witness of `readSeq_round_trip` at `seq = [1, 2, 3]`. -/
theorem readSeq_round_trip_witness :
    (∀ x ∈ ([1, 2, 3] : List Int), 1 ≤ x ∧ x ≤ 9) ∧
    readSeq [0, 0, 0] (rd [1, 2, 3] 0 * 10 ^ 2 + rd [1, 2, 3] 1 * 10 ^ 1 + rd [1, 2, 3] 2 * 10 ^ 0) =
      [1, 2, 3] :=
  ⟨by decide, (readSeq_round_trip [0, 0, 0] [1, 2, 3] (by decide) (by decide) (by decide)).1⟩

/-- The array `readSeq` leaves has the length of the array it was given. -/
theorem readSeq_length (seq : List Int) (val : Int) : (readSeq seq val).length = seq.length := by
  simp [readSeq, readSeqStep]

/-- C15: for every non-negative value `readSeq` uses the three lowest decimal
digits only: `readSeq(value)` is `readSeq(value mod 1000)`; there is no error
result, the array always has its 3 elements; and `readSeq(0)` is all zero. -/
theorem readSeq_ignores_high_digits (seq : List Int) (value : Int) (hseq : seq.length = 3)
    (hv : 0 ≤ value) :
    readSeq seq value = readSeq seq (value % 1000) ∧
    readSeq seq value = readSeq seq (value.tmod 1000) ∧
    (readSeq seq value).length = 3 ∧
    readSeq seq 0 = [0, 0, 0] := by
  have hm : 0 ≤ value % 1000 := by omega
  have ht : value.tmod 1000 = value % 1000 := Int.tmod_eq_emod hv (by norm_num)
  have key : readSeq seq value = readSeq seq (value % 1000) := by
    rw [readSeq_eq seq value hseq hv, readSeq_eq seq (value % 1000) hseq hm]
    congr 1
    · omega
    · congr 1
      · omega
      · congr 1
        omega
  refine ⟨key, by rw [ht]; exact key, ?_, ?_⟩
  · rw [readSeq_eq seq value hseq hv]; rfl
  · rw [readSeq_eq seq 0 hseq (by norm_num)]; decide

/-- Witness of `readSeq_ignores_high_digits` at the value 98123. -/
theorem readSeq_ignores_high_digits_witness :
    (0 : Int) ≤ 98123 ∧ readSeq [0, 0, 0] 98123 = readSeq [0, 0, 0] (98123 % 1000) :=
  ⟨by decide, (readSeq_ignores_high_digits [0, 0, 0] 98123 (by decide) (by decide)).1⟩

/-- C9 (counterexample): with the verbose flag the unit-test branch prints a
third line before the two score lines; and when the marker block of
`countMatches` holds `[1, 1, 1]`, the arguments 123 and 123 give the counters
`exact = 3`, `approximate = -3`, the code 27, and the lines `2 exact`,
`7 approximate`. -/
theorem unitTest_not_only_score_lines :
    unitTest true [0, 0, 0] [0, 0, 0] [0, 0, 0] 123 321 =
      [Event.printf "Testing matches function with sequences 123 and 321\n",
       Event.printf "1 exact\n", Event.printf "2 approximate\n"] ∧
    unitTest true [0, 0, 0] [0, 0, 0] [0, 0, 0] 123 321 ≠
      [Event.printf "1 exact\n", Event.printf "2 approximate\n"] ∧
    (countMatchesFrom [1, 1, 1] (readSeq [0, 0, 0] 123) (readSeq [0, 0, 0] 123)).exact = 3 ∧
    (countMatchesFrom [1, 1, 1] (readSeq [0, 0, 0] 123) (readSeq [0, 0, 0] 123)).approximate =
      -3 ∧
    unitTest false [1, 1, 1] [0, 0, 0] [0, 0, 0] 123 123 =
      [Event.printf "2 exact\n", Event.printf "7 approximate\n"] := by
  decide

/-- C9 (amended): for non-negative integers `m` and `n`, without the verbose
flag and with the markers of `countMatches` starting cleared, the unit-test
branch prints exactly the two lines `<e> exact` and `<a> approximate`, where
`e` and `a` are the `exact` and `approximate` counters `countMatches`
computed for `readSeq(m)` and `readSeq(n)`: `/ 10` and `% 10` in
`showMatches` recover both counters.  With the verbose flag the same two
lines come last, after a diagnostic line. -/
theorem unitTest_prints_counts (verbose : Bool) (seq1 seq2 : List Int) (m n : Int)
    (h1 : seq1.length = 3) (h2 : seq2.length = 3) (hm : 0 ≤ m) (hn : 0 ≤ n) :
    unitTest false [0, 0, 0] seq1 seq2 m n =
      [Event.printf
        (toString (countMatchesFrom [0, 0, 0] (readSeq seq1 m) (readSeq seq2 n)).exact ++
          " exact\n"),
       Event.printf
        (toString (countMatchesFrom [0, 0, 0] (readSeq seq1 m) (readSeq seq2 n)).approximate ++
          " approximate\n")] ∧
    (countMatches [0, 0, 0] (readSeq seq1 m) (readSeq seq2 n)).tdiv 10 =
      (countMatchesFrom [0, 0, 0] (readSeq seq1 m) (readSeq seq2 n)).exact ∧
    (countMatches [0, 0, 0] (readSeq seq1 m) (readSeq seq2 n)).tmod 10 =
      (countMatchesFrom [0, 0, 0] (readSeq seq1 m) (readSeq seq2 n)).approximate ∧
    unitTest verbose [0, 0, 0] seq1 seq2 m n =
      (if verbose then
          [Event.printf ("Testing matches function with sequences " ++ toString m ++
            " and " ++ toString n ++ "\n")]
        else []) ++ unitTest false [0, 0, 0] seq1 seq2 m n := by
  have l1 : (readSeq seq1 m).length = 3 := by rw [readSeq_length, h1]
  have l2 : (readSeq seq2 n).length = 3 := by rw [readSeq_length, h2]
  obtain ⟨h0, ha, hs, _⟩ := countMatchesFrom_list_facts _ _ l1 l2
  obtain ⟨hd, hmod⟩ := decode_code _ _ h0 ha (by omega)
  have hcode : countMatches [0, 0, 0] (readSeq seq1 m) (readSeq seq2 n) =
      (countMatchesFrom [0, 0, 0] (readSeq seq1 m) (readSeq seq2 n)).exact * 10 +
        (countMatchesFrom [0, 0, 0] (readSeq seq1 m) (readSeq seq2 n)).approximate := rfl
  rw [← hcode] at hd hmod
  refine ⟨?_, hd, hmod, ?_⟩
  · simp only [unitTest, showMatches, hd, hmod]
    rfl
  · simp [unitTest]

/-- Witness of `unitTest_prints_counts` at `m = 123`, `n = 321`. -/
theorem unitTest_prints_counts_witness :
    (0 : Int) ≤ 123 ∧ (0 : Int) ≤ 321 ∧
    unitTest false [0, 0, 0] [0, 0, 0] [0, 0, 0] 123 321 =
      [Event.printf
        (toString (countMatchesFrom [0, 0, 0] (readSeq [0, 0, 0] 123)
          (readSeq [0, 0, 0] 321)).exact ++ " exact\n"),
       Event.printf
        (toString (countMatchesFrom [0, 0, 0] (readSeq [0, 0, 0] 123)
          (readSeq [0, 0, 0] 321)).approximate ++ " approximate\n")] :=
  ⟨by decide, by decide,
    (unitTest_prints_counts false [0, 0, 0] [0, 0, 0] 123 321 (by decide) (by decide)
      (by decide) (by decide)).1⟩

/-! ## `initSeq` and the digit-entry loop -/

/-- C13: whatever non-negative values `rand()` returns, `initSeq` fills the 3
slots of the secret with values in `[1, 3]`; 0 does not occur in it. -/
theorem initSeq_range (theSeq : List Int) (rand : Nat → Int) (hlen : theSeq.length = 3)
    (hrand : ∀ k, 0 ≤ rand k) :
    (initSeq theSeq rand).length = 3 ∧
    (∀ x ∈ initSeq theSeq rand, 1 ≤ x ∧ x ≤ 3) ∧
    (0 : Int) ∉ initSeq theSeq rand ∧
    initSeq theSeq rand = [rand 0 % 3 + 1, rand 1 % 3 + 1, rand 2 % 3 + 1] := by
  obtain ⟨a, b, c, rfl⟩ := length_three theSeq hlen
  have h3 : (0 : Int) ≤ 3 := by norm_num
  have heq : initSeq [a, b, c] rand = [rand 0 % 3 + 1, rand 1 % 3 + 1, rand 2 % 3 + 1] := by
    simp only [initSeq, List.foldl, List.set]
    rw [Int.tmod_eq_emod (hrand 0) h3, Int.tmod_eq_emod (hrand 1) h3,
      Int.tmod_eq_emod (hrand 2) h3]
  rw [heq]
  refine ⟨rfl, ?_, ?_, rfl⟩
  · intro x hx
    simp only [List.mem_cons, List.mem_singleton, List.not_mem_nil, or_false] at hx
    rcases hx with h | h | h <;> subst h <;> omega
  · intro hx
    simp only [List.mem_cons, List.mem_singleton, List.not_mem_nil, or_false] at hx
    rcases hx with h | h | h <;> omega

/-- Witness of `initSeq_range`: `rand()` returning 7, 8 and 9. -/
theorem initSeq_range_witness :
    (∀ k : Nat, (0 : Int) ≤ (fun k : Nat => (k : Int) + 7) k) ∧
    initSeq [0, 0, 0] (fun k : Nat => (k : Int) + 7) = [2, 3, 1] :=
  ⟨fun k => by positivity,
    ((initSeq_range [0, 0, 0] (fun k : Nat => (k : Int) + 7) rfl
      (fun k => by positivity)).2.2.2).trans (by decide)⟩

/-- C10 (divergence): the button is released at the first poll, pressed at the
next two polls (one press held across two polls) and released at the fourth
poll; the fifth evaluation of the loop condition finds the timeout elapsed.
The samples contain one rising edge, and the digit-entry loop ends with
`count = 2`. -/
theorem held_press_counted_per_poll :
    enterCount 0
      [{ now := 10, button := 0, reset := 20 },
       { now := 30, button := 524288, reset := 0 },
       { now := 40, button := 524288, reset := 0 },
       { now := 50, button := 0, reset := 0 },
       { now := 3000020, button := 0, reset := 0 }] = some 2 ∧
    risingEdges false [false, true, true, false] = 1 ∧
    ([{ now := 10, button := 0, reset := 20 },
       { now := 30, button := 524288, reset := 0 },
       { now := 40, button := 524288, reset := 0 },
       { now := 50, button := 0, reset := 0 }] : List Poll).map (fun p => decide (p.button ≠ 0)) =
      [false, true, true, false] := by
  decide

/-- Once `count` is at least 1 the digit-entry loop ends with a count of at
least 1. -/
theorem digitLoop_pos_of_pos (polls : List Poll) :
    ∀ (ts : Nat) (count c : Int), 1 ≤ count → digitLoop polls ts count = some c → 1 ≤ c := by
  induction polls with
  | nil => intro ts count c _ h; simp [digitLoop] at h
  | cons p ps ih =>
    intro ts count c hc h
    rw [digitLoop] at h
    by_cases hcond : (p.now % 2 ^ 32 + 2 ^ 32 - ts % 2 ^ 32) % 2 ^ 32 < TIMEOUT
    · rw [if_pos hcond] at h
      by_cases hb : p.button ≠ 0
      · simp only [if_pos hb] at h
        exact ih _ _ c (by omega) h
      · simp only [if_neg hb] at h
        exact ih _ _ c hc h
    · rw [if_neg hcond] at h
      injection h with h
      omega

/-- When no two consecutive timer reads made while `count == 0` are `TIMEOUT`
or more apart, the digit-entry loop does not end with `count = 0`. -/
theorem enterCount_pos_of_prompt (polls : List Poll) :
    ∀ (ts : Nat) (c : Int), promptWhileZero ts polls → enterCount ts polls = some c → 1 ≤ c := by
  unfold enterCount
  induction polls with
  | nil => intro ts c _ h; simp [digitLoop] at h
  | cons p ps ih =>
    intro ts c hp h
    obtain ⟨hcond, hrest⟩ := hp
    rw [digitLoop, if_pos hcond] at h
    by_cases hb : p.button = 0
    · simp only [hb, ne_eq, not_true_eq_false, if_false, if_true] at h
      exact ih _ c (hrest hb) h
    · have hb2 : p.button ≠ 0 := hb
      simp only [if_pos hb2] at h
      exact digitLoop_pos_of_pos ps _ _ c (by norm_num) h

/-- C11 (divergence): two runs of the digit-entry loop that end with
`count = 0`.  In the first the timer has advanced by 3000000 between the read
into `ts` and the first evaluation of the loop condition, so the button is
never polled.  In the second the first poll finds the button released and
resets `ts` to 2000, and the next evaluation of the condition reads 3002000. -/
theorem digit_entry_can_end_with_zero :
    enterCount 1000 [{ now := 3001000, button := 0, reset := 0 }] = some 0 ∧
    enterCount 1000
      [{ now := 1500, button := 0, reset := 2000 },
       { now := 3002000, button := 0, reset := 0 }] = some 0 := by
  decide

end MasterMind
